import Mathlib

/-
Verification of the CumulusCI bulkdata core: lookup classification and
dependency discovery (generate_mapping_from_declarations.py) and the
load-query extender pipeline (query_transformers.py).

The definitions below are a shallow embedding of the Python source.
Python dicts are embedded as insertion-ordered association lists,
Python exceptions as an Except monad over an explicit error type, and
SQLAlchemy column expressions as a small expression AST with an
evaluation semantics.
-/

/-- Errors raised by the embedded code.  keyError models a raw Python
KeyError carrying the missing key; bulkData models BulkDataException
(the error the spec calls MissingRecordTypeMappingError) carrying its
message; assertionError models a failed assert statement (the error the
spec calls InvariantViolation); attributeError models an access to an
attribute that has not been populated; schemaLookupError models the
schema-view lookup failure the spec calls SchemaLookupError, carrying
object and field context. -/
inductive PyErr where
  | keyError (key : String)
  | bulkData (msg : String)
  | assertionError
  | attributeError
  | schemaLookupError (obj : String) (field : String)
deriving DecidableEq, Repr

/-- Ordered association-list lookup, embedding Python dict indexing. -/
def lookupAssoc {α : Type} (l : List (String × α)) (k : String) : Option α :=
  (l.find? (fun p => p.1 == k)).map Prod.snd

/-- Schema information for one field: referenceTo is the ordered list of
target object names (empty means the field is not a lookup).  From
org_schema as consumed by generate_mapping_from_declarations.py. -/
structure FieldInfo where
  referenceTo : List String
deriving DecidableEq, Repr

/-- Schema information for one sobject: its fields keyed by name. -/
structure SchemaObjInfo where
  fields : List (String × FieldInfo)
deriving DecidableEq, Repr

/-- A simplified extract declaration: object name and ordered field
names, as consumed by classify_and_filter_lookups. -/
structure SimplifiedExtractDeclaration where
  sf_object : String
  fields : List String
deriving DecidableEq, Repr

/-- SimplifiedExtractDeclarationWithLookups: the classified output, with
plain fields and an ordered lookups mapping from field name to the
surviving target table names. -/
structure DeclWithLookups where
  sf_object : String
  fields : List String
  lookups : List (String × List String)
deriving DecidableEq, Repr

/-- Embeds the is_lookup closure of _fields_and_lookups_for_decl.
Record types are not treated as lookups; otherwise the schema view is
consulted for referenceTo and truthiness of the result is returned.
The error payload is modelled from the spec: the schema-view failure
(SchemaLookupError) carries object and field context; in the source the
container raising it lives in org_schema, outside these files. -/
def is_lookup (sobj : SchemaObjInfo) (obj : String) (field_name : String) :
    Except PyErr Bool :=
  if field_name == "RecordTypeId" then .ok false
  else
    match lookupAssoc sobj.fields field_name with
    | none => .error (.schemaLookupError obj field_name)
    | some fi => .ok (!fi.referenceTo.isEmpty)

/-- Embeds partition(is_lookup, decl.fields): splits the field list into
(simple_fields, lookups), preserving order, propagating the first
schema-lookup failure.  partition itself (cumulusci.utils.iterators) is
not under src; modelled from the spec: plain fields and candidate
lookups are separated in declaration order. -/
def partitionFields (sobj : SchemaObjInfo) (obj : String) :
    List String → Except PyErr (List String × List String)
  | [] => .ok ([], [])
  | f :: rest =>
    match is_lookup sobj obj f with
    | .error e => .error e
    | .ok b =>
      match partitionFields sobj obj rest with
      | .error e => .error e
      | .ok (simple, lks) =>
        .ok (if b then (simple, f :: lks) else (f :: simple, lks))

/-- Embeds the lookups_and_targets generator: pairs each candidate
lookup field with its referenceTo list from the schema view (a raw
KeyError if the field vanished from the view, mirroring dict access). -/
def lookupsAndTargets (sobj : SchemaObjInfo) :
    List String → Except PyErr (List (String × List String))
  | [] => .ok []
  | l :: rest =>
    match lookupAssoc sobj.fields l with
    | none => .error (.keyError l)
    | some fi =>
      match lookupsAndTargets sobj rest with
      | .error e => .error e
      | .ok rest2 => .ok ((l, fi.referenceTo) :: rest2)

/-- Embeds _fields_and_lookups_for_decl: splits fields versus lookups
for a declaration; a candidate lookup survives only when some target is
among the referenceable tables, and its target list is filtered (in
referenceTo order) to the referenceable tables. -/
def fieldsAndLookupsForDecl (decl : SimplifiedExtractDeclaration)
    (sobj : SchemaObjInfo) (referenceable_tables : List String) :
    Except PyErr (List String × List (String × List String)) :=
  match partitionFields sobj decl.sf_object decl.fields with
  | .error e => .error e
  | .ok (simple_fields, lookups) =>
    match lookupsAndTargets sobj lookups with
    | .error e => .error e
    | .ok lts =>
      .ok (simple_fields,
        lts.filterMap (fun p =>
          if p.2.any (fun t => referenceable_tables.contains t) then
            some (p.1, p.2.filter (fun t => referenceable_tables.contains t))
          else none))

/-- Embeds _add_lookups_to_decl: fetches the schema info for the object
(a raw KeyError on a missing object, mirroring dict access) and builds
the declaration-with-lookups. -/
def addLookupsToDecl (decl : SimplifiedExtractDeclaration)
    (schema : List (String × SchemaObjInfo)) (referenceable_tables : List String) :
    Except PyErr DeclWithLookups :=
  match lookupAssoc schema decl.sf_object with
  | none => .error (.keyError decl.sf_object)
  | some sobj =>
    match fieldsAndLookupsForDecl decl sobj referenceable_tables with
    | .error e => .error e
    | .ok out => .ok ⟨decl.sf_object, out.1, out.2⟩

/-- Recursion underlying classify_and_filter_lookups. -/
def classifyAll (schema : List (String × SchemaObjInfo))
    (referenceable_tables : List String) :
    List SimplifiedExtractDeclaration → Except PyErr (List DeclWithLookups)
  | [] => .ok []
  | d :: rest =>
    match addLookupsToDecl d schema referenceable_tables with
    | .error e => .error e
    | .ok d2 =>
      match classifyAll schema referenceable_tables rest with
      | .error e => .error e
      | .ok rest2 => .ok (d2 :: rest2)

/-- Embeds classify_and_filter_lookups: the referenceable tables are the
declared object names, and every declaration is classified against
them. -/
def classify_and_filter_lookups (decls : List SimplifiedExtractDeclaration)
    (schema : List (String × SchemaObjInfo)) : Except PyErr (List DeclWithLookups) :=
  classifyAll schema (decls.map (·.sf_object)) decls

/-- DependencyEdge, embedding SObjDependency (sourceTable, targetTables,
fieldName).  Modelled from the spec: SObjDependency lives in
calculate_dependencies.py, outside src; equality is by full tuple. -/
structure SObjDependency where
  table_name_from : String
  table_names_to : List String
  field_name : String
deriving DecidableEq, Repr

/-- Modelled from the spec: OrderedSet.add (cumulusci.utils.collections,
outside src) inserts at the end unless an equal element is already
present, preserving first-insertion order. -/
def orderedSetAdd {α : Type} [DecidableEq α] (s : List α) (e : α) : List α :=
  if e ∈ s then s else s ++ [e]

/-- Embeds discover_dependendencies: folds every lookup of every
declaration, in order, into an insertion-ordered deduplicated set of
dependency edges. -/
def discover_dependendencies (simplified_decls : List DeclWithLookups) :
    List SObjDependency :=
  simplified_decls.foldl
    (fun s decl =>
      decl.lookups.foldl
        (fun s p => orderedSetAdd s (SObjDependency.mk decl.sf_object p.2 p.1)) s)
    []

/-- Insert into a Python dict embedded as an ordered association list:
overwrite in place when the key exists, append otherwise. -/
def dictInsert {α : Type} (d : List (String × α)) (k : String) (v : α) :
    List (String × α) :=
  if d.any (fun p => p.1 == k) then
    d.map (fun p => if p.1 == k then (k, v) else p)
  else d ++ [(k, v)]

/-- Embeds dict(zip(fields, fields)) and similar constructions. -/
def dictOfPairs {α : Type} (ps : List (String × α)) : List (String × α) :=
  ps.foldl (fun d p => dictInsert d p.1 p.2) []

/-- A lookup of a load-step mapping, from mapping_parser as used by
query_transformers.py.  table is the single resolved target table,
key_field an optional explicit key field, and after the deferral flag
(modelled from the spec as the boolean deferred flag; the source stores
the name of the step after which to run, truthy exactly when
deferred). -/
structure Lookup where
  name : String
  table : String
  key_field : Option String
  after : Bool
deriving DecidableEq, Repr

/-- Modelled from the spec: the key-field accessor of a lookup
(get_lookup_key_field in mapping_parser, outside src) names the record
model foreign-key field: the explicit key_field when given, else the
lookup field name. -/
def Lookup.get_lookup_key_field (l : Lookup) : String :=
  l.key_field.getD l.name

/-- A load-step mapping (MappingStep of mapping_parser) as consumed by
the query extenders and produced by _mapping_step: object name, ordered
fields dict, ordered lookups dict, optional record type, raw filters. -/
structure MappingStep where
  sf_object : String
  fields : List (String × String) := []
  lookups : List (String × Lookup) := []
  record_type : Option String := none
  filters : List String := []
deriving DecidableEq, Repr

/-- Embeds _mapping_step: one load step per classified declaration,
whose fields dict maps every plain field name and every lookup field
name to itself; lookups are left out at this stage. -/
def mappingStep (decl : DeclWithLookups) : MappingStep :=
  let fields := decl.fields ++ decl.lookups.map Prod.fst
  { sf_object := decl.sf_object,
    fields := dictOfPairs (fields.map (fun f => (f, f))) }

/-- Embeds the list comprehension building mapping_steps. -/
def mappingSteps (decls : List DeclWithLookups) : List MappingStep :=
  decls.map mappingStep

/-- SQL column expressions as built by the query extenders.  column is a
column of an aliased table (aliases are numbered by allocation order),
tcolumn a column of a named table, modelAttr an attribute or column of
the record model, litStr a string literal, concat SQL string
concatenation (what SQLAlchemy builds for Python string + column), and
lower the SQL lower() function. -/
inductive SqlExpr where
  | column (aliasId : Nat) (name : String)
  | tcolumn (table : String) (name : String)
  | modelAttr (name : String)
  | litStr (s : String)
  | concat (a b : SqlExpr)
  | lower (e : SqlExpr)
deriving DecidableEq, Repr

/-- SQL predicates: equality of two expressions, or an opaque text
predicate (sqlalchemy.text). -/
inductive SqlPred where
  | eq (a b : SqlExpr)
  | rawText (s : String)
deriving DecidableEq, Repr

/-- An evaluation environment for one candidate result row: values of
aliased-table columns, plain table columns and record-model fields (all
string-typed, as the staging store holds Salesforce ids and flags as
text), plus an interpretation of opaque text predicates. -/
structure Env where
  aliasCol : Nat → String → String
  tableCol : String → String → String
  modelVal : String → String
  rawHolds : String → Prop

/-- Lower-casing of a string, character by character: the semantics of
the SQL lower() function on the ASCII flags stored by the loader. -/
def strLower (s : String) : String := ⟨s.data.map Char.toLower⟩

/-- Evaluation of SQL expressions over an environment. -/
def evalE (env : Env) : SqlExpr → String
  | .column a c => env.aliasCol a c
  | .tcolumn t c => env.tableCol t c
  | .modelAttr n => env.modelVal n
  | .litStr s => s
  | .concat a b => evalE env a ++ evalE env b
  | .lower e => strLower (evalE env e)

/-- Truth of SQL predicates over an environment. -/
def holdsPred (env : Env) : SqlPred → Prop
  | .eq a b => evalE env a = evalE env b
  | .rawText s => env.rawHolds s

/-- Modelled from the spec: the id-mapping table is keyed by the legacy
string id, so coercion of a (string) foreign-key value to the key type
of the mapping table is the identity on strings. -/
def coerceToKeyType (v : String) : String := v

/-- Written from the spec wording for the lookup join condition: the
join condition equates the id column of the id-mapping table, under the
allocated alias, to the record-model foreign-key field value coerced to
the key type of the mapping table. -/
def specLookupJoinCondition (env : Env) (a : Nat) (key_field : String) : Prop :=
  env.aliasCol a "id" = coerceToKeyType (env.modelVal key_field)

/-- A mapping lookup as held by AddLookupsToQuery, together with its
aliased_table attribute: no alias is attached until columns_to_add
allocates one (the extender allocates a fresh alias per lookup; before
allocation the attribute is unpopulated). -/
structure AliasedLookup where
  base : Lookup
  aliasedTable : Option Nat
deriving DecidableEq, Repr

/-- The non-deferred lookups of a mapping: the source list
comprehension keeps lookup values whose after flag is falsy. -/
def nonDeferredLookups (m : MappingStep) : List Lookup :=
  (m.lookups.map Prod.snd).filter (fun l => !l.after)

/-- The state of one AddLookupsToQuery instance: its lookup objects
(with their aliased_table attributes), the tables the allocated aliases
are bound to (index = alias number), the cached_property caches, and
the alias allocation counter. -/
structure LookupsState where
  lookups : List AliasedLookup
  aliasTables : List String
  cachedColumns : Option (List SqlExpr)
  cachedJoins : Option (List (Nat × SqlPred))
  nextAlias : Nat
deriving DecidableEq, Repr

namespace AddLookupsToQuery

/-- Embeds AddLookupsToQuery.__init__: store the mapping and keep only
the lookups whose after flag is falsy; no alias exists yet. -/
def init (m : MappingStep) : LookupsState :=
  { lookups := (nonDeferredLookups m).map (fun l => ⟨l, none⟩),
    aliasTables := [],
    cachedColumns := none,
    cachedJoins := none,
    nextAlias := 0 }

/-- Embeds the allocation loop of columns_to_add: for each lookup in
order, fetch the id-mapping table named table plus _sf_ids from store
metadata (stopping with the offending table name on a catalog miss,
after the aliases of the earlier lookups were already assigned) and
attach a fresh alias to the lookup. -/
def allocAliases (metadata : List String) :
    List AliasedLookup → Nat → List String →
    List AliasedLookup × Nat × List String × Option String
  | [], n, ats => ([], n, ats, none)
  | l :: rest, n, ats =>
    let tname := l.base.table ++ "_sf_ids"
    if metadata.contains tname then
      let r := allocAliases metadata rest (n + 1) (ats ++ [tname])
      ({ l with aliasedTable := some n } :: r.1, r.2)
    else (l :: rest, n, ats, some tname)

/-- Embeds AddLookupsToQuery.columns_to_add (a cached_property): on
first access, allocate an alias of the id-mapping table for every
non-deferred lookup (mutating the lookup objects) and return the sf_id
column of each alias; a catalog miss raises a KeyError and caches
nothing; later accesses return the cached list unchanged. -/
def columns_to_add (metadata : List String) (s : LookupsState) :
    Except PyErr (List SqlExpr) × LookupsState :=
  match s.cachedColumns with
  | some v => (.ok v, s)
  | none =>
    match allocAliases metadata s.lookups s.nextAlias s.aliasTables with
    | (ls, n, ats, some t) =>
      (.error (.keyError t),
       { s with lookups := ls, nextAlias := n, aliasTables := ats })
    | (ls, n, ats, none) =>
      let cols := ls.map (fun l => SqlExpr.column (l.aliasedTable.getD 0) "sf_id")
      (.ok cols,
       { s with lookups := ls, nextAlias := n, aliasTables := ats,
                cachedColumns := some cols })

/-- Embeds the join_for_lookup closure of outerjoins_to_add: the join
target is the aliased id-mapping table and the join condition is
aliased id column = "" + model foreign-key column (SQL concatenation of
the empty string literal with the column).  Accessing the alias before
columns_to_add populated it raises an AttributeError. -/
def join_for_lookup (l : AliasedLookup) : Except PyErr (Nat × SqlPred) :=
  match l.aliasedTable with
  | none => .error .attributeError
  | some a =>
    .ok (a, .eq (.column a "id")
                (.concat (.litStr "") (.modelAttr l.base.get_lookup_key_field)))

/-- The list comprehension over join_for_lookup. -/
def joinsFor : List AliasedLookup → Except PyErr (List (Nat × SqlPred))
  | [] => .ok []
  | l :: rest =>
    match join_for_lookup l with
    | .error e => .error e
    | .ok j =>
      match joinsFor rest with
      | .error e => .error e
      | .ok js => .ok (j :: js)

/-- Embeds AddLookupsToQuery.outerjoins_to_add (a cached_property): one
outer join per non-deferred lookup, built by join_for_lookup; later
accesses return the cached list unchanged. -/
def outerjoins_to_add (s : LookupsState) :
    Except PyErr (List (Nat × SqlPred)) × LookupsState :=
  match s.cachedJoins with
  | some v => (.ok v, s)
  | none =>
    match joinsFor s.lookups with
    | .error e => (.error e, s)
    | .ok js => (.ok js, { s with cachedJoins := some js })

end AddLookupsToQuery

/-- Modelled from the spec: the source-side record-type mapping table
name for a load step (get_source_record_type_table in mapping_parser,
outside src). -/
def MappingStep.get_source_record_type_table (m : MappingStep) : String :=
  m.sf_object ++ "_rt_mapping"

/-- Modelled from the spec: the destination-side record-type mapping
table name for a load step (get_destination_record_type_table in
mapping_parser, outside src). -/
def MappingStep.get_destination_record_type_table (m : MappingStep) : String :=
  m.sf_object ++ "_rt_target_mapping"

/-- The state of one AddRecordTypesToQuery instance after
construction. -/
structure RTState where
  mapping : MappingStep
  rt_dest_table : Option String
deriving DecidableEq, Repr

namespace AddRecordTypesToQuery

/-- Embeds AddRecordTypesToQuery.__init__: when the step maps a
RecordTypeId field, the destination record-type table handle is fetched
from store metadata at construction time; a catalog miss there is a raw
KeyError, not a BulkDataException. -/
def init (m : MappingStep) (metadata : List String) : Except PyErr RTState :=
  if (lookupAssoc m.fields "RecordTypeId").isSome then
    let dest := m.get_destination_record_type_table
    if metadata.contains dest then .ok ⟨m, some dest⟩
    else .error (.keyError dest)
  else .ok ⟨m, none⟩

/-- Embeds AddRecordTypesToQuery.columns_to_add: the record_type_id
column of the destination record-type table, when present. -/
def columns_to_add (s : RTState) : Option (List SqlExpr) :=
  match s.rt_dest_table with
  | some t => some [SqlExpr.tcolumn t "record_type_id"]
  | none => none

/-- Embeds AddRecordTypesToQuery.outerjoins_to_add: when the step maps
RecordTypeId, fetch the source record-type table, wrapping a catalog
miss in a BulkDataException whose message carries the remediation hint
and the missing table name (the formatted KeyError); then join the
source table on the record-type id and the destination table on the
developer name.  The second metadata access is unguarded in the source;
it is a raw KeyError, unreachable after a successful construction. -/
def outerjoins_to_add (metadata : List String) (s : RTState) :
    Except PyErr (Option (List (String × SqlPred))) :=
  if (lookupAssoc s.mapping.fields "RecordTypeId").isSome then
    let src := s.mapping.get_source_record_type_table
    if metadata.contains src then
      let dest := s.mapping.get_destination_record_type_table
      if metadata.contains dest then
        .ok (some
          [(src, .eq (.tcolumn src "record_type_id")
                     (.modelAttr ((lookupAssoc s.mapping.fields "RecordTypeId").getD ""))),
           (dest, .eq (.tcolumn dest "developer_name")
                      (.tcolumn src "developer_name"))])
      else .error (.keyError dest)
    else
      .error (.bulkData
        ("A record type mapping table was not found in your dataset. Was it generated by extract_data? "
          ++ src))
  else .ok none

end AddRecordTypesToQuery

/-- Embeds AddMappingFiltersToQuery.filters_to_add: one opaque text
predicate per raw filter string, or none when the step declares no
filters. -/
def AddMappingFiltersToQuery.filters_to_add (m : MappingStep) :
    Option (List SqlPred) :=
  if m.filters.isEmpty then none else some (m.filters.map SqlPred.rawText)

/-- The predicate AddPersonAccountsToQuery contributes: keep rows whose
IsPersonAccount model column lowercases to the string false. -/
def personAccountFilter : SqlPred :=
  .eq (.lower (.modelAttr "IsPersonAccount")) (.litStr "false")

namespace AddPersonAccountsToQuery

/-- Embeds the inherited LoadQueryExtender.__init__ for
AddPersonAccountsToQuery: it only stores its arguments and can raise
nothing. -/
def init (m : MappingStep) (metadata : List String) :
    Except PyErr (MappingStep × List String) :=
  .ok (m, metadata)

/-- Embeds AddPersonAccountsToQuery.filters_to_add: asserts (only when
the fragment is computed) that the step object is Contact, then keeps
rows whose IsPersonAccount flag lowercases to false. -/
def filters_to_add (m : MappingStep) : Except PyErr (List SqlPred) :=
  if m.sf_object == "Contact" then .ok [personAccountFilter]
  else .error .assertionError

end AddPersonAccountsToQuery

/-
Lemmas about lookup classification.
-/

/-- Boolean form of the is_lookup test, for stating which fields the
partition sends to each side. -/
def isLookupB (sobj : SchemaObjInfo) (f : String) : Bool :=
  if f == "RecordTypeId" then false
  else
    match lookupAssoc sobj.fields f with
    | none => false
    | some fi => !fi.referenceTo.isEmpty

/-- The referenceTo list of a field, empty when the schema view has no
entry (only used on fields known to be present). -/
def referenceToOf (sobj : SchemaObjInfo) (f : String) : List String :=
  match lookupAssoc sobj.fields f with
  | some fi => fi.referenceTo
  | none => []

lemma is_lookup_ok_eq {sobj : SchemaObjInfo} {obj f : String} {b : Bool}
    (h : is_lookup sobj obj f = .ok b) : b = isLookupB sobj f := by
  unfold is_lookup at h
  unfold isLookupB
  by_cases hrt : f == "RecordTypeId"
  · simp [hrt] at h ⊢; exact h
  · simp only [hrt, if_neg, Bool.false_eq_true, if_false] at h ⊢
    cases hla : lookupAssoc sobj.fields f with
    | none => rw [hla] at h; cases h
    | some fi => rw [hla] at h; cases h; rfl

lemma isLookupB_true_iff {sobj : SchemaObjInfo} {f : String} :
    isLookupB sobj f = true ↔
      f ≠ "RecordTypeId" ∧
      ∃ fi, lookupAssoc sobj.fields f = some fi ∧ fi.referenceTo ≠ [] := by
  unfold isLookupB
  by_cases hrt : f = "RecordTypeId"
  · simp [hrt]
  · simp only [beq_iff_eq, hrt, if_false, ne_eq, not_false_iff, true_and]
    cases hla : lookupAssoc sobj.fields f with
    | none => simp
    | some fi => simp [List.isEmpty_iff]

lemma partitionFields_ok_eq {sobj : SchemaObjInfo} {obj : String} :
    ∀ {fields simple lks},
    partitionFields sobj obj fields = .ok (simple, lks) →
    simple = fields.filter (fun f => !isLookupB sobj f) ∧
      lks = fields.filter (fun f => isLookupB sobj f)
  | [], simple, lks, h => by
    cases h; exact ⟨rfl, rfl⟩
  | f :: rest, simple, lks, h => by
    unfold partitionFields at h
    cases hl : is_lookup sobj obj f with
    | error e => rw [hl] at h; cases h
    | ok b =>
      rw [hl] at h
      cases hp : partitionFields sobj obj rest with
      | error e => rw [hp] at h; cases h
      | ok pr =>
        obtain ⟨s2, l2⟩ := pr
        rw [hp] at h
        obtain ⟨hs2, hl2⟩ := partitionFields_ok_eq hp
        have hb := is_lookup_ok_eq hl
        subst hb
        cases hlf : isLookupB sobj f with
        | true =>
          rw [hlf] at h; cases h
          simp [List.filter_cons, hlf, hs2, hl2]
        | false =>
          rw [hlf] at h; cases h
          simp [List.filter_cons, hlf, hs2, hl2]

lemma lookupsAndTargets_ok {sobj : SchemaObjInfo} :
    ∀ {lks : List String},
    (∀ l ∈ lks, (lookupAssoc sobj.fields l).isSome) →
    lookupsAndTargets sobj lks = .ok (lks.map (fun l => (l, referenceToOf sobj l)))
  | [], _ => rfl
  | l :: rest, h => by
    have hl : (lookupAssoc sobj.fields l).isSome := h l (List.mem_cons_self l rest)
    obtain ⟨fi, hfi⟩ := Option.isSome_iff_exists.mp hl
    have ih := lookupsAndTargets_ok (fun x hx => h x (List.mem_cons_of_mem l hx))
    unfold lookupsAndTargets
    rw [hfi, ih]
    simp [referenceToOf, hfi]

/-- The kept-lookup transformation applied to each candidate lookup
field. -/
def surviveLookup (sobj : SchemaObjInfo) (refT : List String) (l : String) :
    Option (String × List String) :=
  if (referenceToOf sobj l).any (fun t => refT.contains t) then
    some (l, (referenceToOf sobj l).filter (fun t => refT.contains t))
  else none

lemma fieldsAndLookups_ok_char {decl : SimplifiedExtractDeclaration}
    {sobj : SchemaObjInfo} {refT : List String}
    {out : List String × List (String × List String)}
    (h : fieldsAndLookupsForDecl decl sobj refT = .ok out) :
    out.1 = decl.fields.filter (fun f => !isLookupB sobj f) ∧
      out.2 = (decl.fields.filter (fun f => isLookupB sobj f)).filterMap
                (surviveLookup sobj refT) := by
  have h0 := h
  unfold fieldsAndLookupsForDecl at h
  cases hp : partitionFields sobj decl.sf_object decl.fields with
  | error e => rw [hp] at h; cases h
  | ok pr =>
    obtain ⟨simple, lks⟩ := pr
    rw [hp] at h
    obtain ⟨hs, hl⟩ := partitionFields_ok_eq hp
    have hsome : ∀ l ∈ lks, (lookupAssoc sobj.fields l).isSome := by
      intro l hmem
      rw [hl] at hmem
      have := (List.mem_filter.mp hmem).2
      obtain ⟨-, fi, hfi, -⟩ := isLookupB_true_iff.mp this
      simp [hfi]
    have hfull : fieldsAndLookupsForDecl decl sobj refT =
        .ok (decl.fields.filter (fun f => !isLookupB sobj f),
             (decl.fields.filter (fun f => isLookupB sobj f)).filterMap
               (surviveLookup sobj refT)) := by
      unfold fieldsAndLookupsForDecl
      rw [hp]
      dsimp only
      rw [lookupsAndTargets_ok hsome]
      dsimp only
      rw [hs, hl, List.filterMap_map]
      rfl
    rw [hfull] at h0
    cases h0
    exact ⟨rfl, rfl⟩

lemma partitionFields_error_of_missing {sobj : SchemaObjInfo} {obj : String} :
    ∀ {fields : List String},
    (∃ f, f ∈ fields ∧ f ≠ "RecordTypeId" ∧ lookupAssoc sobj.fields f = none) →
    ∃ g, g ∈ fields ∧ g ≠ "RecordTypeId" ∧ lookupAssoc sobj.fields g = none ∧
      partitionFields sobj obj fields = .error (.schemaLookupError obj g)
  | [], h => absurd h.choose_spec.1 (List.not_mem_nil h.choose)
  | f0 :: rest, h => by
    by_cases h0 : f0 ≠ "RecordTypeId" ∧ lookupAssoc sobj.fields f0 = none
    · refine ⟨f0, List.mem_cons_self f0 rest, h0.1, h0.2, ?_⟩
      unfold partitionFields is_lookup
      simp only [beq_iff_eq, h0.1, if_false, h0.2]
    · obtain ⟨f, hf, hne, hmiss⟩ := h
      have hfrest : f ∈ rest := by
        rcases List.mem_cons.mp hf with heq | hr
        · exfalso; exact h0 (heq ▸ ⟨hne, hmiss⟩)
        · exact hr
      obtain ⟨g, hg, hgne, hgmiss, hgerr⟩ :=
        partitionFields_error_of_missing ⟨f, hfrest, hne, hmiss⟩
      refine ⟨g, List.mem_cons_of_mem f0 hg, hgne, hgmiss, ?_⟩
      unfold partitionFields
      cases hl0 : is_lookup sobj obj f0 with
      | error e =>
        exfalso
        unfold is_lookup at hl0
        by_cases hrt : f0 == "RecordTypeId"
        · simp [hrt] at hl0
        · cases hla : lookupAssoc sobj.fields f0 with
          | none => exact h0 ⟨fun hc => hrt (beq_iff_eq.mpr hc), hla⟩
          | some fi => simp [hrt, hla] at hl0
      | ok b => rw [hgerr]

lemma addLookupsToDecl_error_of_missing {decl : SimplifiedExtractDeclaration}
    {schema : List (String × SchemaObjInfo)} {sobj : SchemaObjInfo}
    {refT : List String}
    (hobj : lookupAssoc schema decl.sf_object = some sobj)
    (hmiss : ∃ f, f ∈ decl.fields ∧ f ≠ "RecordTypeId" ∧
        lookupAssoc sobj.fields f = none) :
    ∃ g, g ∈ decl.fields ∧ g ≠ "RecordTypeId" ∧ lookupAssoc sobj.fields g = none ∧
      addLookupsToDecl decl schema refT =
        .error (.schemaLookupError decl.sf_object g) := by
  have hpart : ∃ g, g ∈ decl.fields ∧ g ≠ "RecordTypeId" ∧
      lookupAssoc sobj.fields g = none ∧
      partitionFields sobj decl.sf_object decl.fields =
        .error (.schemaLookupError decl.sf_object g) :=
    partitionFields_error_of_missing hmiss
  obtain ⟨g, hg, hgne, hgmiss, hgerr⟩ := hpart
  refine ⟨g, hg, hgne, hgmiss, ?_⟩
  unfold addLookupsToDecl
  rw [hobj]
  dsimp only
  unfold fieldsAndLookupsForDecl
  rw [hgerr]

/-
Lemmas about the ordered dependency-edge set.
-/

lemma orderedSetAdd_mem_eq {α : Type} [DecidableEq α] {s : List α} {e : α}
    (h : e ∈ s) : orderedSetAdd s e = s := by
  simp [orderedSetAdd, h]

lemma orderedSetAdd_prefix {α : Type} [DecidableEq α] (s : List α) (e : α) :
    List.IsPrefix s (orderedSetAdd s e) := by
  unfold orderedSetAdd
  split
  · exact List.prefix_refl s
  · exact ⟨[e], rfl⟩

lemma orderedSetAdd_nodup {α : Type} [DecidableEq α] {s : List α} (e : α)
    (h : s.Nodup) : (orderedSetAdd s e).Nodup := by
  unfold orderedSetAdd
  split
  · exact h
  · rename_i hne
    rw [List.nodup_append]
    refine ⟨h, List.nodup_singleton e, ?_⟩
    intro a ha hae
    simp only [List.mem_singleton] at hae
    exact hne (hae ▸ ha)

lemma foldl_preserves {α β : Type} (P : α → Prop) (g : α → β → α)
    (hg : ∀ a b, P a → P (g a b)) :
    ∀ (xs : List β) (a : α), P a → P (xs.foldl g a)
  | [], a, h => h
  | x :: xs, a, h => foldl_preserves P g hg xs (g a x) (hg a x h)

lemma discover_dependendencies_nodup (decls : List DeclWithLookups) :
    (discover_dependendencies decls).Nodup := by
  unfold discover_dependendencies
  refine foldl_preserves List.Nodup _ ?_ decls [] List.nodup_nil
  intro s decl hs
  exact foldl_preserves List.Nodup _
    (fun s p hs => orderedSetAdd_nodup _ hs) decl.lookups s hs

/-
Lemmas about the identity fields dict of a mapping step.
-/

lemma mem_dictInsert_self {α : Type} (d : List (String × α)) (k : String) (v : α) :
    (k, v) ∈ dictInsert d k v := by
  unfold dictInsert
  split
  · rename_i hany
    obtain ⟨p, hp, hbeq⟩ := List.any_eq_true.mp hany
    exact List.mem_map.mpr ⟨p, hp, by simp [hbeq]⟩
  · exact List.mem_append_right d (List.mem_singleton.mpr rfl)

lemma mem_dictInsert_of_ne {α : Type} {d : List (String × α)} {p : String × α}
    (hp : p ∈ d) {k : String} (hne : p.1 ≠ k) (v : α) :
    p ∈ dictInsert d k v := by
  unfold dictInsert
  split
  · refine List.mem_map.mpr ⟨p, hp, ?_⟩
    simp [hne]
  · exact List.mem_append_left _ hp

lemma dictInsert_identity {d : List (String × String)}
    (hd : ∀ p ∈ d, p.2 = p.1) (k : String) :
    ∀ p ∈ dictInsert d k k, p.2 = p.1 := by
  intro p hp
  unfold dictInsert at hp
  rcases hp'' : d.any (fun q => q.1 == k) with _ | _
  all_goals rw [hp''] at hp
  · simp only [Bool.false_eq_true, if_false] at hp
    rcases List.mem_append.mp hp with hin | hone
    · exact hd p hin
    · rw [List.mem_singleton.mp hone]
  · simp only [if_true] at hp
    obtain ⟨q, hq, himg⟩ := List.mem_map.mp hp
    by_cases hqk : q.1 == k
    · rw [if_pos hqk] at himg; rw [← himg]
    · rw [if_neg hqk] at himg; rw [← himg]; exact hd q hq

lemma dictOfPairs_identity_aux :
    ∀ (ks : List String) (acc : List (String × String)),
    (∀ p ∈ acc, p.2 = p.1) →
    (∀ p ∈ ks.foldl (fun d f => dictInsert d f f) acc, p.2 = p.1) ∧
    (∀ k, (k, k) ∈ acc → (k, k) ∈ ks.foldl (fun d f => dictInsert d f f) acc) ∧
    (∀ k, k ∈ ks → (k, k) ∈ ks.foldl (fun d f => dictInsert d f f) acc)
  | [], acc, hacc => ⟨hacc, fun _ h => h, fun k hk => absurd hk (List.not_mem_nil k)⟩
  | f :: ks, acc, hacc => by
    have hstep : ∀ p ∈ dictInsert acc f f, p.2 = p.1 := dictInsert_identity hacc f
    obtain ⟨hid, hkeep, hins⟩ := dictOfPairs_identity_aux ks (dictInsert acc f f) hstep
    refine ⟨hid, ?_, ?_⟩
    · intro k hk
      refine hkeep k ?_
      by_cases hkf : k = f
      · subst hkf; exact mem_dictInsert_self acc k k
      · exact mem_dictInsert_of_ne hk hkf f
    · intro k hk
      rcases List.mem_cons.mp hk with heq | hr
      · subst heq; exact hkeep k (mem_dictInsert_self acc k k)
      · exact hins k hr

lemma surviveLookup_eq_some {sobj : SchemaObjInfo} {refT : List String}
    {a : String} {p : String × List String}
    (h : surviveLookup sobj refT a = some p) :
    p.1 = a ∧ p.2 = (referenceToOf sobj a).filter (fun t => refT.contains t) ∧
      (referenceToOf sobj a).any (fun t => refT.contains t) = true := by
  unfold surviveLookup at h
  split at h
  · cases h; exact ⟨rfl, rfl, by assumption⟩
  · cases h

lemma any_of_filter_ne_nil {l : List String} {p : String → Bool}
    (h : l.filter p ≠ []) : l.any p = true := by
  rw [List.any_eq_true]
  by_contra hc
  push_neg at hc
  exact h (List.filter_eq_nil_iff.mpr hc)

lemma filter_ne_nil_of_any {l : List String} {p : String → Bool}
    (h : l.any p = true) : l.filter p ≠ [] := by
  obtain ⟨a, ha, hpa⟩ := List.any_eq_true.mp h
  exact List.ne_nil_of_mem (List.mem_filter.mpr ⟨ha, hpa⟩)

/-- C4: for every declaration and candidate lookup field, classification
keeps the field as a lookup mapping to the intersection of referenceTo
with the exported table names (order preserved from referenceTo) when
that intersection is non-empty, drops the field from both the plain
fields and the lookups otherwise, and every target in every lookups
value of the output is one of the exported names. -/
theorem c4_lookup_intersection_classification
    (decl : SimplifiedExtractDeclaration) (sobj : SchemaObjInfo)
    (refT : List String) (out : List String × List (String × List String))
    (h : fieldsAndLookupsForDecl decl sobj refT = .ok out) :
    (∀ f fi, f ∈ decl.fields → f ≠ "RecordTypeId" →
        lookupAssoc sobj.fields f = some fi →
        fi.referenceTo.filter (fun t => refT.contains t) ≠ [] →
        (f, fi.referenceTo.filter (fun t => refT.contains t)) ∈ out.2) ∧
    (∀ f fi, f ∈ decl.fields → f ≠ "RecordTypeId" →
        lookupAssoc sobj.fields f = some fi → fi.referenceTo ≠ [] →
        fi.referenceTo.filter (fun t => refT.contains t) = [] →
        f ∉ out.1 ∧ f ∉ out.2.map Prod.fst) ∧
    (∀ p t, p ∈ out.2 → t ∈ p.2 → t ∈ refT) := by
  obtain ⟨h1, h2⟩ := fieldsAndLookups_ok_char h
  refine ⟨?_, ?_, ?_⟩
  · intro f fi hf hne hfi hfil
    have hrefne : fi.referenceTo ≠ [] := by
      intro hnil
      exact hfil (by rw [hnil]; rfl)
    have hisl : isLookupB sobj f = true :=
      isLookupB_true_iff.mpr ⟨hne, fi, hfi, hrefne⟩
    have href : referenceToOf sobj f = fi.referenceTo := by
      simp [referenceToOf, hfi]
    rw [h2]
    refine List.mem_filterMap.mpr ⟨f, List.mem_filter.mpr ⟨hf, hisl⟩, ?_⟩
    unfold surviveLookup
    rw [href, if_pos (any_of_filter_ne_nil hfil)]
  · intro f fi hf hne hfi hrefne hfil
    have hisl : isLookupB sobj f = true :=
      isLookupB_true_iff.mpr ⟨hne, fi, hfi, hrefne⟩
    have href : referenceToOf sobj f = fi.referenceTo := by
      simp [referenceToOf, hfi]
    constructor
    · rw [h1]
      intro hmem
      have := (List.mem_filter.mp hmem).2
      rw [hisl] at this
      cases this
    · rw [h2]
      intro hmem
      obtain ⟨p, hp, hfst⟩ := List.mem_map.mp hmem
      obtain ⟨a, _, hsl⟩ := List.mem_filterMap.mp hp
      obtain ⟨hp1, _, hany⟩ := surviveLookup_eq_some hsl
      rw [hfst] at hp1
      rw [← hp1, href] at hany
      exact filter_ne_nil_of_any hany hfil
  · intro p t hp ht
    rw [h2] at hp
    obtain ⟨a, _, hsl⟩ := List.mem_filterMap.mp hp
    obtain ⟨_, hp2, _⟩ := surviveLookup_eq_some hsl
    rw [hp2] at ht
    exact List.elem_iff.mp (List.mem_filter.mp ht).2

/-- An end-to-end example declaration (Contact with a plain field, a
kept lookup, a RecordTypeId and a dropped lookup). -/
def exContactDecl : SimplifiedExtractDeclaration :=
  ⟨"Contact", ["LastName", "AccountId", "RecordTypeId", "OwnerId"]⟩

/-- Schema view for the example: AccountId references Account, OwnerId
references User (outside the export set), and the schema even reports a
referenceTo for RecordTypeId. -/
def exSchemaContact : SchemaObjInfo :=
  ⟨[("LastName", ⟨[]⟩), ("AccountId", ⟨["Account"]⟩),
    ("RecordTypeId", ⟨["RecordType"]⟩), ("OwnerId", ⟨["User"]⟩)]⟩

/-- The export set of the example. -/
def exRefTables : List String := ["Account", "Contact"]

/-- The classified output of the example declaration. -/
def exClassified : List String × List (String × List String) :=
  (["LastName", "RecordTypeId"], [("AccountId", ["Account"])])

theorem c4_lookup_intersection_classification_witness :
    fieldsAndLookupsForDecl exContactDecl exSchemaContact exRefTables =
        .ok exClassified ∧
    ("AccountId",
        (FieldInfo.mk ["Account"]).referenceTo.filter
          (fun t => exRefTables.contains t)) ∈ exClassified.2 ∧
    ("OwnerId" ∉ exClassified.1 ∧ "OwnerId" ∉ exClassified.2.map Prod.fst) :=
  ⟨rfl,
   (c4_lookup_intersection_classification exContactDecl exSchemaContact
       exRefTables exClassified rfl).1 "AccountId" ⟨["Account"]⟩
     (by decide) (by decide) (by decide) (by decide),
   (c4_lookup_intersection_classification exContactDecl exSchemaContact
       exRefTables exClassified rfl).2.1 "OwnerId" ⟨["User"]⟩
     (by decide) (by decide) (by decide) (by decide) (by decide)⟩

/-- C5: classification never places RecordTypeId into the lookups of
the classified output; whenever RecordTypeId appears among the fields
of a declaration it is classified as a plain field, whatever referenceTo
the schema view reports for it. -/
theorem c5_record_type_never_lookup
    (decl : SimplifiedExtractDeclaration) (sobj : SchemaObjInfo)
    (refT : List String) (out : List String × List (String × List String))
    (h : fieldsAndLookupsForDecl decl sobj refT = .ok out) :
    "RecordTypeId" ∉ out.2.map Prod.fst ∧
    ("RecordTypeId" ∈ decl.fields → "RecordTypeId" ∈ out.1) := by
  obtain ⟨h1, h2⟩ := fieldsAndLookups_ok_char h
  have hrt : isLookupB sobj "RecordTypeId" = false := by
    unfold isLookupB
    simp
  constructor
  · rw [h2]
    intro hmem
    obtain ⟨p, hp, hfst⟩ := List.mem_map.mp hmem
    obtain ⟨a, ha, hsl⟩ := List.mem_filterMap.mp hp
    obtain ⟨hp1, -, -⟩ := surviveLookup_eq_some hsl
    have : isLookupB sobj a = true := (List.mem_filter.mp ha).2
    rw [hp1.symm, hfst, hrt] at this
    cases this
  · intro hf
    rw [h1]
    refine List.mem_filter.mpr ⟨hf, ?_⟩
    rw [hrt]
    rfl

theorem c5_record_type_never_lookup_witness :
    fieldsAndLookupsForDecl exContactDecl exSchemaContact exRefTables =
        .ok exClassified ∧
    "RecordTypeId" ∉ exClassified.2.map Prod.fst ∧
    "RecordTypeId" ∈ exClassified.1 :=
  ⟨rfl,
   (c5_record_type_never_lookup exContactDecl exSchemaContact exRefTables
       exClassified rfl).1,
   (c5_record_type_never_lookup exContactDecl exSchemaContact exRefTables
       exClassified rfl).2 (by decide)⟩

/-- C3: dependency-edge collection is idempotent and
order-deterministic: the collector is a pure function, so running it
twice on the same input yields the same ordered edge list; re-adding an
edge already present changes neither order nor size of the set; adding
any edge leaves the existing elements as a prefix, so every edge keeps
its first-insertion position; and the collected output never holds two
copies of an edge. -/
theorem c3_dependency_collection_idempotent_deterministic
    (decls : List DeclWithLookups) (s : List SObjDependency)
    (e e2 : SObjDependency) (h : e ∈ s) :
    discover_dependendencies decls = discover_dependendencies decls ∧
    orderedSetAdd s e = s ∧
    List.IsPrefix s (orderedSetAdd s e2) ∧
    (discover_dependendencies decls).Nodup :=
  ⟨rfl, orderedSetAdd_mem_eq h, orderedSetAdd_prefix s e2,
   discover_dependendencies_nodup decls⟩

/-- A classified-declaration list in which the same edge arises twice. -/
def exDeclsWithLookups : List DeclWithLookups :=
  [⟨"Contact", ["LastName"], [("AccountId", ["Account"])]⟩,
   ⟨"Contact", ["FirstName"], [("AccountId", ["Account"])]⟩]

/-- The dependency edge of the example. -/
def exEdge : SObjDependency := ⟨"Contact", ["Account"], "AccountId"⟩

theorem c3_dependency_collection_idempotent_deterministic_witness :
    exEdge ∈ [exEdge] ∧
    (orderedSetAdd [exEdge] exEdge = [exEdge] ∧
     (discover_dependendencies exDeclsWithLookups).Nodup ∧
     discover_dependendencies exDeclsWithLookups = [exEdge]) :=
  ⟨by decide,
   (c3_dependency_collection_idempotent_deterministic exDeclsWithLookups
       [exEdge] exEdge exEdge (by decide)).2.1,
   (c3_dependency_collection_idempotent_deterministic exDeclsWithLookups
       [exEdge] exEdge exEdge (by decide)).2.2.2,
   by decide⟩

/-- C9: when a declaration contains a field (other than RecordTypeId)
for which the schema view has no entry, classification of that
declaration fails with a SchemaLookupError carrying the object name and
a missing field name, propagated out of _add_lookups_to_decl rather
than swallowed.  The embedded classification is a pure total Lean
function of its inputs, so it performs no network or store access by
construction. -/
theorem c9_schema_lookup_error_propagates
    (decl : SimplifiedExtractDeclaration)
    (schema : List (String × SchemaObjInfo)) (sobj : SchemaObjInfo)
    (refT : List String)
    (hobj : lookupAssoc schema decl.sf_object = some sobj)
    (hmiss : ∃ f, f ∈ decl.fields ∧ f ≠ "RecordTypeId" ∧
        lookupAssoc sobj.fields f = none) :
    ∃ g, g ∈ decl.fields ∧ g ≠ "RecordTypeId" ∧
      lookupAssoc sobj.fields g = none ∧
      addLookupsToDecl decl schema refT =
        .error (.schemaLookupError decl.sf_object g) :=
  addLookupsToDecl_error_of_missing hobj hmiss

/-- A schema view holding only the Contact object of the example. -/
def exSchema : List (String × SchemaObjInfo) := [("Contact", exSchemaContact)]

/-- A declaration referring to a field absent from the schema view. -/
def exBadDecl : SimplifiedExtractDeclaration := ⟨"Contact", ["LastName", "Oops"]⟩

theorem c9_schema_lookup_error_propagates_witness :
    lookupAssoc exSchema "Contact" = some exSchemaContact ∧
    (∃ f, f ∈ exBadDecl.fields ∧ f ≠ "RecordTypeId" ∧
        lookupAssoc exSchemaContact.fields f = none) ∧
    (∃ g, g ∈ exBadDecl.fields ∧ g ≠ "RecordTypeId" ∧
        lookupAssoc exSchemaContact.fields g = none ∧
        addLookupsToDecl exBadDecl exSchema exRefTables =
          .error (.schemaLookupError "Contact" g)) :=
  ⟨by decide, ⟨"Oops", by decide, by decide, by decide⟩,
   c9_schema_lookup_error_propagates exBadDecl exSchema exSchemaContact
     exRefTables (by decide) ⟨"Oops", by decide, by decide, by decide⟩⟩

lemma mappingStep_fields (decl : DeclWithLookups) :
    (mappingStep decl).fields =
      (decl.fields ++ decl.lookups.map Prod.fst).foldl
        (fun d f => dictInsert d f f) [] := by
  show dictOfPairs ((decl.fields ++ decl.lookups.map Prod.fst).map
    (fun f => (f, f))) = _
  unfold dictOfPairs
  rw [List.foldl_map]

/-- C10: mapping-step assembly produces exactly one load step per
classified declaration; the step keeps the object name, its fields dict
maps every plain field name and every lookup field name to itself, every
entry of the dict is an identity pair, and the lookups of the produced
step are left empty at this stage. -/
theorem c10_mapping_step_identity_fields
    (decls : List DeclWithLookups) (decl : DeclWithLookups) (f : String)
    (hf : f ∈ decl.fields ∨ f ∈ decl.lookups.map Prod.fst) :
    mappingSteps decls = decls.map mappingStep ∧
    (mappingSteps decls).length = decls.length ∧
    (mappingStep decl).sf_object = decl.sf_object ∧
    (mappingStep decl).lookups = [] ∧
    (∀ p ∈ (mappingStep decl).fields, p.2 = p.1) ∧
    (f, f) ∈ (mappingStep decl).fields := by
  have hks := dictOfPairs_identity_aux
    (decl.fields ++ decl.lookups.map Prod.fst) []
    (by intro p hp; exact absurd hp (List.not_mem_nil p))
  refine ⟨rfl, by simp [mappingSteps], rfl, rfl, ?_, ?_⟩
  · rw [mappingStep_fields]
    exact hks.1
  · rw [mappingStep_fields]
    exact hks.2.2 f (List.mem_append.mpr hf)

/-- The classified example declaration, used to instantiate C10. -/
def exDeclWL : DeclWithLookups :=
  ⟨"Contact", ["LastName", "RecordTypeId"], [("AccountId", ["Account"])]⟩

theorem c10_mapping_step_identity_fields_witness :
    ("AccountId" ∈ exDeclWL.fields ∨
        "AccountId" ∈ exDeclWL.lookups.map Prod.fst) ∧
    ("AccountId", "AccountId") ∈ (mappingStep exDeclWL).fields ∧
    (mappingStep exDeclWL).lookups = [] :=
  ⟨Or.inr (by decide),
   (c10_mapping_step_identity_fields [exDeclWL] exDeclWL "AccountId"
       (Or.inr (by decide))).2.2.2.2.2,
   (c10_mapping_step_identity_fields [exDeclWL] exDeclWL "AccountId"
       (Or.inr (by decide))).2.2.2.1⟩

/-
Lemmas about the lookup join extender pipeline.
-/

lemma allocAliases_ok (metadata : List String) :
    ∀ (ls : List AliasedLookup) (n : Nat) (ats : List String),
    (∀ l ∈ ls, metadata.contains (l.base.table ++ "_sf_ids")) →
    AddLookupsToQuery.allocAliases metadata ls n ats =
      ((ls.zip (List.range' n ls.length)).map
         (fun p => { p.1 with aliasedTable := some p.2 }),
       n + ls.length,
       ats ++ ls.map (fun l => l.base.table ++ "_sf_ids"), none)
  | [], n, ats, _ => by
    simp [AddLookupsToQuery.allocAliases]
  | l :: rest, n, ats, h => by
    have hl := h l (List.mem_cons_self l rest)
    have ih := allocAliases_ok metadata rest (n + 1) (ats ++ [l.base.table ++ "_sf_ids"])
      (fun x hx => h x (List.mem_cons_of_mem l hx))
    unfold AddLookupsToQuery.allocAliases
    rw [if_pos hl, ih]
    simp only [List.length_cons, List.range'_succ, List.zip_cons_cons, List.map_cons,
      Prod.mk.injEq]
    exact ⟨trivial, by omega, by simp, trivial⟩

lemma lookups_columns_result (m : MappingStep) (metadata : List String)
    (hmeta : ∀ l ∈ nonDeferredLookups m, metadata.contains (l.table ++ "_sf_ids")) :
    AddLookupsToQuery.columns_to_add metadata (AddLookupsToQuery.init m) =
      (.ok ((List.range' 0 (nonDeferredLookups m).length).map
          (fun a => SqlExpr.column a "sf_id")),
       { lookups := ((nonDeferredLookups m).zip
             (List.range' 0 (nonDeferredLookups m).length)).map
             (fun p => ⟨p.1, some p.2⟩),
         aliasTables := (nonDeferredLookups m).map (fun l => l.table ++ "_sf_ids"),
         cachedColumns := some ((List.range' 0 (nonDeferredLookups m).length).map
           (fun a => SqlExpr.column a "sf_id")),
         cachedJoins := none,
         nextAlias := (nonDeferredLookups m).length }) := by
  have halloc := allocAliases_ok metadata
    ((nonDeferredLookups m).map (fun l => ⟨l, none⟩)) 0 []
    (by
      intro al hal
      obtain ⟨l, hl, hmk⟩ := List.mem_map.mp hal
      rw [← hmk]
      exact hmeta l hl)
  have hzip : ∀ (r : List Nat),
      (((nonDeferredLookups m).map
          (fun l => (⟨l, none⟩ : AliasedLookup))).zip r).map
        (fun p => { p.1 with aliasedTable := some p.2 }) =
      ((nonDeferredLookups m).zip r).map
        (fun p => (⟨p.1, some p.2⟩ : AliasedLookup)) := by
    intro r
    rw [List.zip_map_left, List.map_map]
    rfl
  have hbase : ((nonDeferredLookups m).map
      (fun l => (⟨l, none⟩ : AliasedLookup))).map
        (fun l => l.base.table ++ "_sf_ids") =
      (nonDeferredLookups m).map (fun l => l.table ++ "_sf_ids") := by
    rw [List.map_map]
    rfl
  unfold AddLookupsToQuery.columns_to_add AddLookupsToQuery.init
  dsimp only
  rw [halloc]
  dsimp only
  rw [List.length_map] at *
  rw [hzip, hbase]
  have hcols :
      (((nonDeferredLookups m).zip
          (List.range' 0 (nonDeferredLookups m).length)).map
        (fun p => (⟨p.1, some p.2⟩ : AliasedLookup))).map
        (fun l => SqlExpr.column (l.aliasedTable.getD 0) "sf_id") =
      (List.range' 0 (nonDeferredLookups m).length).map
        (fun a => SqlExpr.column a "sf_id") := by
    rw [List.map_map]
    have hsnd : ((nonDeferredLookups m).zip
        (List.range' 0 (nonDeferredLookups m).length)).map Prod.snd =
        List.range' 0 (nonDeferredLookups m).length :=
      List.map_snd_zip _ _ (by rw [List.length_range'])
    calc (((nonDeferredLookups m).zip
          (List.range' 0 (nonDeferredLookups m).length)).map
          ((fun l => SqlExpr.column (l.aliasedTable.getD 0) "sf_id") ∘
            (fun p => (⟨p.1, some p.2⟩ : AliasedLookup))))
        = (((nonDeferredLookups m).zip
            (List.range' 0 (nonDeferredLookups m).length)).map Prod.snd).map
            (fun a => SqlExpr.column a "sf_id") := by
          rw [List.map_map]
          rfl
      _ = (List.range' 0 (nonDeferredLookups m).length).map
            (fun a => SqlExpr.column a "sf_id") := by rw [hsnd]
  rw [hcols]
  simp

lemma joinsFor_ok :
    ∀ (z : List (Lookup × Nat)),
    AddLookupsToQuery.joinsFor (z.map (fun p => (⟨p.1, some p.2⟩ : AliasedLookup))) =
      .ok (z.map (fun p => (p.2, SqlPred.eq (.column p.2 "id")
        (.concat (.litStr "") (.modelAttr p.1.get_lookup_key_field)))))
  | [] => rfl
  | p :: z => by
    unfold AddLookupsToQuery.joinsFor AddLookupsToQuery.join_for_lookup
    rw [List.map_cons, List.map_cons]
    dsimp only
    rw [joinsFor_ok z]

lemma lookups_joins_result (m : MappingStep) (metadata : List String)
    (hmeta : ∀ l ∈ nonDeferredLookups m, metadata.contains (l.table ++ "_sf_ids")) :
    (AddLookupsToQuery.outerjoins_to_add
        (AddLookupsToQuery.columns_to_add metadata (AddLookupsToQuery.init m)).2).1 =
      .ok (((nonDeferredLookups m).zip
            (List.range' 0 (nonDeferredLookups m).length)).map
        (fun p => (p.2, SqlPred.eq (.column p.2 "id")
          (.concat (.litStr "") (.modelAttr p.1.get_lookup_key_field))))) := by
  rw [lookups_columns_result m metadata hmeta]
  unfold AddLookupsToQuery.outerjoins_to_add
  dsimp only
  rw [joinsFor_ok]

/-- C6: the lookup join extender emits nothing for deferred (after)
lookups: construction keeps exactly the non-deferred lookups, every
kept lookup has the deferral flag false, and a deferred lookup value is
never among them; for each non-deferred lookup it emits exactly one
projected column (the sf_id column of the allocated alias) and exactly
one outer join under that alias, the alias of the i-th lookup is bound
to the id-mapping table of that lookup (its table name plus _sf_ids),
and the allocated aliases are pairwise distinct (fresh). -/
theorem c6_lookup_extender_deferred_excluded_fresh_aliases
    (m : MappingStep) (metadata : List String)
    (hmeta : ∀ l ∈ nonDeferredLookups m, metadata.contains (l.table ++ "_sf_ids")) :
    (AddLookupsToQuery.init m).lookups.map (fun al => al.base) =
        nonDeferredLookups m ∧
    (∀ l ∈ nonDeferredLookups m, l.after = false) ∧
    (∀ p ∈ m.lookups, p.2.after = true → p.2 ∉ nonDeferredLookups m) ∧
    (AddLookupsToQuery.columns_to_add metadata (AddLookupsToQuery.init m)).1 =
      .ok ((List.range' 0 (nonDeferredLookups m).length).map
        (fun a => SqlExpr.column a "sf_id")) ∧
    (AddLookupsToQuery.outerjoins_to_add
        (AddLookupsToQuery.columns_to_add metadata (AddLookupsToQuery.init m)).2).1 =
      .ok (((nonDeferredLookups m).zip
            (List.range' 0 (nonDeferredLookups m).length)).map
        (fun p => (p.2, SqlPred.eq (.column p.2 "id")
          (.concat (.litStr "") (.modelAttr p.1.get_lookup_key_field))))) ∧
    (AddLookupsToQuery.columns_to_add metadata (AddLookupsToQuery.init m)).2.aliasTables =
      (nonDeferredLookups m).map (fun l => l.table ++ "_sf_ids") ∧
    (List.range' 0 (nonDeferredLookups m).length).Nodup := by
  refine ⟨?_, ?_, ?_, ?_, lookups_joins_result m metadata hmeta, ?_, ?_⟩
  · unfold AddLookupsToQuery.init
    rw [List.map_map]
    exact List.map_id _
  · intro l hl
    have := (List.mem_filter.mp hl).2
    simpa using this
  · intro p hp hafter hmem
    have := (List.mem_filter.mp hmem).2
    rw [hafter] at this
    cases this
  · rw [lookups_columns_result m metadata hmeta]
  · rw [lookups_columns_result m metadata hmeta]
  · exact List.nodup_range' 0 (nonDeferredLookups m).length

/-- The example load-step mapping: a non-deferred AccountId lookup and
a deferred ReportsToId lookup. -/
def exMapping : MappingStep :=
  { sf_object := "Contact",
    fields := [("LastName", "LastName")],
    lookups :=
      [("AccountId", ⟨"AccountId", "Account", none, false⟩),
       ("ReportsToId", ⟨"ReportsToId", "Contact", none, true⟩)] }

/-- Store metadata for the example: only the Account id-mapping table is
needed, since the ReportsToId lookup is deferred. -/
def exMetadata : List String := ["Account_sf_ids"]

theorem c6_lookup_extender_deferred_excluded_fresh_aliases_witness :
    (∀ l ∈ nonDeferredLookups exMapping,
        exMetadata.contains (l.table ++ "_sf_ids")) ∧
    (AddLookupsToQuery.columns_to_add exMetadata
        (AddLookupsToQuery.init exMapping)).1 =
      .ok ((List.range' 0 (nonDeferredLookups exMapping).length).map
        (fun a => SqlExpr.column a "sf_id")) ∧
    (∀ p ∈ exMapping.lookups, p.2.after = true →
        p.2 ∉ nonDeferredLookups exMapping) :=
  ⟨by decide,
   (c6_lookup_extender_deferred_excluded_fresh_aliases exMapping exMetadata
      (by decide)).2.2.2.1,
   (c6_lookup_extender_deferred_excluded_fresh_aliases exMapping exMetadata
      (by decide)).2.2.1⟩

/-- C1: for every non-deferred lookup of a load step, the outer join
contributed by the lookup extender carries the condition built from
aliased id column = "" + foreign-key column (the SQL concatenation the
source produces), and over every row environment that condition holds
exactly when the id column of the id-mapping table under the allocated
alias equals the record-model foreign-key value coerced to the mapping
table key type: the concatenation with the empty string is precisely
that coercion, so the spec reading of the join predicate is what the
code computes. -/
theorem c1_lookup_join_condition_equates_ids
    (m : MappingStep) (metadata : List String)
    (hmeta : ∀ l ∈ nonDeferredLookups m, metadata.contains (l.table ++ "_sf_ids"))
    (l : Lookup) (a : Nat) (env : Env)
    (hmem : (l, a) ∈ (nonDeferredLookups m).zip
        (List.range' 0 (nonDeferredLookups m).length)) :
    (AddLookupsToQuery.outerjoins_to_add
        (AddLookupsToQuery.columns_to_add metadata (AddLookupsToQuery.init m)).2).1 =
      .ok (((nonDeferredLookups m).zip
            (List.range' 0 (nonDeferredLookups m).length)).map
        (fun p => (p.2, SqlPred.eq (.column p.2 "id")
          (.concat (.litStr "") (.modelAttr p.1.get_lookup_key_field))))) ∧
    (a, SqlPred.eq (.column a "id")
        (.concat (.litStr "") (.modelAttr l.get_lookup_key_field))) ∈
      ((nonDeferredLookups m).zip
          (List.range' 0 (nonDeferredLookups m).length)).map
        (fun p => (p.2, SqlPred.eq (.column p.2 "id")
          (.concat (.litStr "") (.modelAttr p.1.get_lookup_key_field)))) ∧
    (holdsPred env (SqlPred.eq (.column a "id")
        (.concat (.litStr "") (.modelAttr l.get_lookup_key_field))) ↔
      specLookupJoinCondition env a l.get_lookup_key_field) := by
  refine ⟨lookups_joins_result m metadata hmeta, ?_, ?_⟩
  · exact List.mem_map.mpr ⟨(l, a), hmem, rfl⟩
  · unfold holdsPred evalE specLookupJoinCondition coerceToKeyType
    simp [evalE]

/-- A row environment for the example: the Account id-mapping row
carries legacy id 001A, and the Contact staging row holds that id in
its AccountId column. -/
def exEnv : Env :=
  { aliasCol := fun _ _ => "001A",
    tableCol := fun _ _ => "",
    modelVal := fun _ => "001A",
    rawHolds := fun _ => True }

theorem c1_lookup_join_condition_equates_ids_witness :
    (∀ l ∈ nonDeferredLookups exMapping,
        exMetadata.contains (l.table ++ "_sf_ids")) ∧
    ((⟨"AccountId", "Account", none, false⟩ : Lookup), 0) ∈
      (nonDeferredLookups exMapping).zip
        (List.range' 0 (nonDeferredLookups exMapping).length) ∧
    (holdsPred exEnv (SqlPred.eq (.column 0 "id")
        (.concat (.litStr "")
          (.modelAttr (Lookup.get_lookup_key_field
            ⟨"AccountId", "Account", none, false⟩)))) ↔
      specLookupJoinCondition exEnv 0
        (Lookup.get_lookup_key_field ⟨"AccountId", "Account", none, false⟩)) :=
  ⟨by decide, by decide,
   (c1_lookup_join_condition_equates_ids exMapping exMetadata (by decide)
      ⟨"AccountId", "Account", none, false⟩ 0 exEnv (by decide)).2.2⟩

/-
Lemmas about the cached_property caches.
-/

lemma columns_cached (metadata : List String) (s : LookupsState)
    (v : List SqlExpr) (h : s.cachedColumns = some v) :
    AddLookupsToQuery.columns_to_add metadata s = (.ok v, s) := by
  unfold AddLookupsToQuery.columns_to_add
  rw [h]

lemma columns_ok_cached {metadata : List String} {s s1 : LookupsState}
    {v : List SqlExpr}
    (hc : AddLookupsToQuery.columns_to_add metadata s = (.ok v, s1)) :
    s1.cachedColumns = some v := by
  unfold AddLookupsToQuery.columns_to_add at hc
  cases hcc : s.cachedColumns with
  | some w =>
    rw [hcc] at hc
    cases hc
    exact hcc
  | none =>
    rw [hcc] at hc
    rcases hqn : AddLookupsToQuery.allocAliases metadata s.lookups s.nextAlias
        s.aliasTables with ⟨ls, n, ats, err⟩
    rw [hqn] at hc
    cases err with
    | some t => simp at hc
    | none =>
      dsimp only at hc
      cases hc
      rfl

lemma joins_cached (s : LookupsState) (v : List (Nat × SqlPred))
    (h : s.cachedJoins = some v) :
    AddLookupsToQuery.outerjoins_to_add s = (.ok v, s) := by
  unfold AddLookupsToQuery.outerjoins_to_add
  rw [h]

lemma joins_ok_cached {s s2 : LookupsState} {js : List (Nat × SqlPred)}
    (h : AddLookupsToQuery.outerjoins_to_add s = (.ok js, s2)) :
    s2.cachedJoins = some js := by
  unfold AddLookupsToQuery.outerjoins_to_add at h
  cases hcc : s.cachedJoins with
  | some w =>
    rw [hcc] at h
    cases h
    exact hcc
  | none =>
    rw [hcc] at h
    cases hj : AddLookupsToQuery.joinsFor s.lookups with
    | error e => rw [hj] at h; simp at h
    | ok js2 =>
      rw [hj] at h
      dsimp only at h
      cases h
      rfl

/-- C7 counterexample: for the concrete lookup extender instance built
on exMapping, accessing outerjoins_to_add on the fresh instance fails
(the alias attribute is not yet populated), and computing
columns_to_add mutates the shared lookup objects (their aliased_table
attributes change); so the three fragments are neither independent nor
side-effect-free as the claim states. -/
theorem c7_fragments_not_independent_counterexample :
    (AddLookupsToQuery.outerjoins_to_add (AddLookupsToQuery.init exMapping)).1 =
      .error .attributeError ∧
    (AddLookupsToQuery.columns_to_add exMetadata
        (AddLookupsToQuery.init exMapping)).2.lookups ≠
      (AddLookupsToQuery.init exMapping).lookups :=
  ⟨rfl, by decide⟩

/-- C7 (amended): each fragment is computed at most once per instance
and repeated access returns the same value unchanged (the
cached_property memoisation), but the fragments are not independent or
side-effect-free: computing columns_to_add assigns the alias tables on
the lookup objects, and on any instance holding at least one
non-deferred lookup, outerjoins_to_add fails with an AttributeError
unless columns_to_add has run first. -/
theorem c7_fragments_cached_but_interdependent
    (metadata : List String) (s s1 : LookupsState) (v : List SqlExpr)
    (hc : AddLookupsToQuery.columns_to_add metadata s = (.ok v, s1)) :
    AddLookupsToQuery.columns_to_add metadata s1 = (.ok v, s1) ∧
    (∀ js s2, AddLookupsToQuery.outerjoins_to_add s1 = (.ok js, s2) →
        AddLookupsToQuery.outerjoins_to_add s2 = (.ok js, s2)) ∧
    (∀ m : MappingStep, nonDeferredLookups m ≠ [] →
        (AddLookupsToQuery.outerjoins_to_add (AddLookupsToQuery.init m)).1 =
          .error .attributeError) := by
  refine ⟨columns_cached metadata s1 v (columns_ok_cached hc), ?_, ?_⟩
  · intro js s2 hj
    exact joins_cached s2 js (joins_ok_cached hj)
  · intro m hne
    cases hnds : nonDeferredLookups m with
    | nil => exact absurd hnds hne
    | cons l rest =>
      unfold AddLookupsToQuery.init
      rw [hnds]
      unfold AddLookupsToQuery.outerjoins_to_add
      dsimp only
      rw [List.map_cons]
      unfold AddLookupsToQuery.joinsFor AddLookupsToQuery.join_for_lookup
      rfl

theorem c7_fragments_cached_but_interdependent_witness :
    AddLookupsToQuery.columns_to_add exMetadata
        (AddLookupsToQuery.init exMapping) =
      (.ok [SqlExpr.column 0 "sf_id"],
       (AddLookupsToQuery.columns_to_add exMetadata
          (AddLookupsToQuery.init exMapping)).2) ∧
    AddLookupsToQuery.columns_to_add exMetadata
        (AddLookupsToQuery.columns_to_add exMetadata
          (AddLookupsToQuery.init exMapping)).2 =
      (.ok [SqlExpr.column 0 "sf_id"],
       (AddLookupsToQuery.columns_to_add exMetadata
          (AddLookupsToQuery.init exMapping)).2) :=
  ⟨rfl,
   (c7_fragments_cached_but_interdependent exMetadata
      (AddLookupsToQuery.init exMapping)
      (AddLookupsToQuery.columns_to_add exMetadata
        (AddLookupsToQuery.init exMapping)).2
      [SqlExpr.column 0 "sf_id"] rfl).1⟩

/-- The mapping of a non-Contact load step, for the person-account
invariant. -/
def exOppMapping : MappingStep := { sf_object := "Opportunity" }

/-- The mapping of a Contact load step. -/
def exContactMapping : MappingStep := { sf_object := "Contact" }

/-- C8 counterexample: attaching (constructing) the person-account
extender to a non-Contact step raises nothing; the assertion only fires
later, when the filter fragment is computed.  So the claim that
attaching fails immediately via the assertion is false at this input. -/
theorem c8_person_account_attach_counterexample :
    AddPersonAccountsToQuery.init exOppMapping [] = .ok (exOppMapping, []) ∧
    AddPersonAccountsToQuery.filters_to_add exOppMapping =
      .error .assertionError :=
  ⟨rfl, rfl⟩

/-- C8 (amended): construction of the person-account extender never
fails; for a non-Contact step the assertion fires, loudly and not
silently ignored, when filters_to_add is computed (which the query
pipeline always does); for a Contact step the fragment contributes the
predicate keeping exactly the rows whose IsPersonAccount flag does not
lower-case to true, excluding every row whose flag is case-insensitively
true. -/
theorem c8_person_account_assertion_on_fragment
    (m : MappingStep) (metadata : List String) (env : Env) :
    AddPersonAccountsToQuery.init m metadata = .ok (m, metadata) ∧
    (m.sf_object ≠ "Contact" →
        AddPersonAccountsToQuery.filters_to_add m = .error .assertionError) ∧
    (m.sf_object = "Contact" →
        AddPersonAccountsToQuery.filters_to_add m = .ok [personAccountFilter]) ∧
    (strLower (env.modelVal "IsPersonAccount") = "true" →
        ¬ holdsPred env personAccountFilter) := by
  refine ⟨rfl, ?_, ?_, ?_⟩
  · intro hne
    unfold AddPersonAccountsToQuery.filters_to_add
    rw [if_neg (by simpa using hne)]
  · intro heq
    unfold AddPersonAccountsToQuery.filters_to_add
    rw [if_pos (by simpa using heq)]
  · intro htrue hcontra
    simp only [holdsPred, personAccountFilter, evalE] at hcontra
    rw [htrue] at hcontra
    exact absurd hcontra (by decide)

/-- A row environment whose IsPersonAccount flag reads True. -/
def exEnvTrue : Env :=
  { aliasCol := fun _ _ => "",
    tableCol := fun _ _ => "",
    modelVal := fun _ => "True",
    rawHolds := fun _ => True }

theorem c8_person_account_assertion_on_fragment_witness :
    exOppMapping.sf_object ≠ "Contact" ∧
    AddPersonAccountsToQuery.filters_to_add exOppMapping =
      .error .assertionError ∧
    AddPersonAccountsToQuery.filters_to_add exContactMapping =
      .ok [personAccountFilter] ∧
    ¬ holdsPred exEnvTrue personAccountFilter :=
  ⟨by decide,
   (c8_person_account_assertion_on_fragment exOppMapping [] exEnvTrue).2.1
     (by decide),
   (c8_person_account_assertion_on_fragment exContactMapping [] exEnvTrue).2.2.1
     rfl,
   (c8_person_account_assertion_on_fragment exContactMapping [] exEnvTrue).2.2.2
     (by decide)⟩

/-- Recognises whether a result raised the wrapped BulkDataException
(the error the spec calls MissingRecordTypeMappingError). -/
def raisedMissingRecordTypeMapping {α : Type} : Except PyErr α → Bool
  | .error (.bulkData _) => true
  | _ => false

/-- A load step mapping a RecordTypeId field. -/
def exRTMapping : MappingStep :=
  { sf_object := "Custom", fields := [("RecordTypeId", "RecordTypeId")] }

/-- C2 counterexample: with the destination record-type mapping table
absent from store metadata (the source-side table being present), the
extender raises a raw KeyError at construction, not the wrapped
MissingRecordTypeMappingError the claim requires for either missing
table. -/
theorem c2_record_type_missing_dest_counterexample :
    AddRecordTypesToQuery.init exRTMapping ["Custom_rt_mapping"] =
      .error (.keyError "Custom_rt_target_mapping") ∧
    raisedMissingRecordTypeMapping
      (AddRecordTypesToQuery.init exRTMapping ["Custom_rt_mapping"]) = false :=
  ⟨rfl, rfl⟩

/-- C2 (amended): for a load step that maps RecordTypeId, a missing
destination-side record-type mapping table raises a raw KeyError naming
that table at construction time; with the destination table present,
the extender constructs successfully, and computing its outer joins
raises the wrapped BulkDataException, whose message carries the
remediation hint and names the missing source-side table, exactly when
the source-side table is absent; when both tables are present nothing
is raised and the two record-type joins are returned. -/
theorem c2_record_type_missing_table_errors
    (m : MappingStep) (metadata : List String)
    (hrt : (lookupAssoc m.fields "RecordTypeId").isSome) :
    (metadata.contains m.get_destination_record_type_table = false →
        AddRecordTypesToQuery.init m metadata =
          .error (.keyError m.get_destination_record_type_table)) ∧
    (metadata.contains m.get_destination_record_type_table = true →
        AddRecordTypesToQuery.init m metadata =
          .ok ⟨m, some m.get_destination_record_type_table⟩ ∧
        (metadata.contains m.get_source_record_type_table = false →
            AddRecordTypesToQuery.outerjoins_to_add metadata
                ⟨m, some m.get_destination_record_type_table⟩ =
              .error (.bulkData
                ("A record type mapping table was not found in your dataset. Was it generated by extract_data? "
                  ++ m.get_source_record_type_table))) ∧
        (metadata.contains m.get_source_record_type_table = true →
            ∃ js, AddRecordTypesToQuery.outerjoins_to_add metadata
                ⟨m, some m.get_destination_record_type_table⟩ =
              .ok (some js))) := by
  constructor
  · intro hdest
    unfold AddRecordTypesToQuery.init
    rw [if_pos hrt, if_neg (by simp only [hdest]; exact Bool.false_ne_true)]
  · intro hdest
    refine ⟨?_, ?_, ?_⟩
    · unfold AddRecordTypesToQuery.init
      rw [if_pos hrt, if_pos hdest]
    · intro hsrc
      unfold AddRecordTypesToQuery.outerjoins_to_add
      rw [if_pos hrt, if_neg (by simp only [hsrc]; exact Bool.false_ne_true)]
    · intro hsrc
      refine ⟨[(m.get_source_record_type_table,
          .eq (.tcolumn m.get_source_record_type_table "record_type_id")
              (.modelAttr ((lookupAssoc m.fields "RecordTypeId").getD ""))),
        (m.get_destination_record_type_table,
          .eq (.tcolumn m.get_destination_record_type_table "developer_name")
              (.tcolumn m.get_source_record_type_table "developer_name"))], ?_⟩
      unfold AddRecordTypesToQuery.outerjoins_to_add
      rw [if_pos hrt, if_pos hsrc, if_pos hdest]

theorem c2_record_type_missing_table_errors_witness :
    (lookupAssoc exRTMapping.fields "RecordTypeId").isSome ∧
    AddRecordTypesToQuery.init exRTMapping ["Custom_rt_mapping"] =
      .error (.keyError exRTMapping.get_destination_record_type_table) ∧
    AddRecordTypesToQuery.outerjoins_to_add ["Custom_rt_target_mapping"]
        ⟨exRTMapping, some exRTMapping.get_destination_record_type_table⟩ =
      .error (.bulkData
        ("A record type mapping table was not found in your dataset. Was it generated by extract_data? "
          ++ exRTMapping.get_source_record_type_table)) ∧
    (∃ js, AddRecordTypesToQuery.outerjoins_to_add
        ["Custom_rt_mapping", "Custom_rt_target_mapping"]
        ⟨exRTMapping, some exRTMapping.get_destination_record_type_table⟩ =
      .ok (some js)) :=
  ⟨by decide,
   (c2_record_type_missing_table_errors exRTMapping ["Custom_rt_mapping"]
      (by decide)).1 (by decide),
   ((c2_record_type_missing_table_errors exRTMapping ["Custom_rt_target_mapping"]
      (by decide)).2 (by decide)).2.1 (by decide),
   ((c2_record_type_missing_table_errors exRTMapping
      ["Custom_rt_mapping", "Custom_rt_target_mapping"]
      (by decide)).2 (by decide)).2.2 (by decide)⟩
